import Mathlib

/-!
Verification of `mongoengine/django/mongo_auth/models.py`: a shallow
embedding in Lean of the `MongoUserManager` bridge that lets Django's
auth framework store users in MongoEngine documents.

Modelling choices:
* Python exceptions become an inductive `Exc` type; fallible calls return
  `Except Exc _`.  Python's per-class `DoesNotExist` exceptions are keyed
  by the owning class's name.
* A mongoengine document is a list of field-name/value pairs; a queryset
  holds the list of stored documents plus the name of its owning document
  class (the class whose `DoesNotExist` its `get` raises).
* The module environment (`import_module` / `getattr`) is an explicit
  association-list structure `Env`.
* Django `CharField(...).contribute_to_class(cls, name)` appends the
  field to the model's `_meta` field list in creation order; a plain
  `CharField` performs no `setattr` under the name, so duplicate names
  coexist and the model's canonical lookup `Options.get_field` returns
  the *first* field with the name, modelled by `DjModel.get_field`.
-/

set_option autoImplicit false

/-- The Python exceptions that appear in the source module. -/
inductive Exc where
  /-- `cls.DoesNotExist`, keyed by the owning class's name. -/
  | doesNotExist (cls : String)
  /-- `cls.MultipleObjectsReturned` from a queryset `get` matching several docs. -/
  | multipleObjectsReturned (cls : String)
  /-- `ImportError` from `import_module`. -/
  | importError (mod : String)
  /-- `django.core.exceptions.ImproperlyConfigured` with its message. -/
  | improperlyConfigured (msg : String)
  /-- `AttributeError` from `getattr`. -/
  | attributeError (attr : String)
  /-- `ValueError` from `str.rindex` on a string without the separator. -/
  | valueError
  /-- `NotImplementedError`. -/
  | notImplementedError
  deriving DecidableEq, Repr

/-- A stored document: field-name/value pairs. -/
abbrev Doc := List (String × String)

/-- A mongoengine queryset: the owning document class's name (whose
`DoesNotExist` it raises) and the stored documents it ranges over. -/
structure QuerySet where
  cls : String
  docs : List Doc
  deriving DecidableEq, Repr

/-- Does a document match every keyword criterion? -/
def Doc.matches (d : Doc) (kw : List (String × String)) : Bool :=
  kw.all fun p => (d.find? fun q => q.1 == p.1).map (·.2) == some p.2

/-- `QuerySet.get(**kwargs)`: exactly one matching document, else the owning
class's `DoesNotExist` (no match) or `MultipleObjectsReturned`. -/
def QuerySet.get (qs : QuerySet) (kw : List (String × String)) : Except Exc Doc :=
  match qs.docs.filter (fun d => d.matches kw) with
  | [] => .error (.doesNotExist qs.cls)
  | [d] => .ok d
  | _ => .error (.multipleObjectsReturned qs.cls)

/-- `QuerySet.none()`: an empty clone of the queryset. -/
def QuerySet.none (qs : QuerySet) : QuerySet :=
  { qs with docs := [] }

/-- A mongoengine Document class as the bridge consumes it: its name (for
`DoesNotExist`), `USERNAME_FIELD`, `REQUIRED_FIELDS`, and its default
queryset entry point `objects`. -/
structure DocumentClass where
  name : String
  USERNAME_FIELD : String
  REQUIRED_FIELDS : List String
  objects : QuerySet
  deriving DecidableEq, Repr

/-- A `django.db.models.CharField(label, max_length=.., unique=..)`. -/
structure CharField where
  label : String
  max_length : Nat
  unique : Bool
  deriving DecidableEq, Repr

/-- A Django model class: its name (for `DoesNotExist`), the
`USERNAME_FIELD` / `REQUIRED_FIELDS` attributes the bridge sets, the
fields contributed so far (in contribution order) and its backing
relational table's rows. -/
structure DjModel where
  name : String
  USERNAME_FIELD : String
  REQUIRED_FIELDS : List String
  fields : List (String × CharField)
  table : List Doc
  deriving DecidableEq, Repr

/-- `field.contribute_to_class(cls, name)`: append the field to the
model's `_meta` field list under `n`, in creation order; a plain
`CharField` does no `setattr`, so a duplicate name is not overwritten. -/
def CharField.contribute_to_class (f : CharField) (m : DjModel) (n : String) : DjModel :=
  { m with fields := m.fields ++ [(n, f)] }

/-- Django `Options.get_field(n)`: iterate the contributed fields in
creation order and return the first whose name matches — the field the
model reports under `n`. -/
def DjModel.get_field (m : DjModel) (n : String) : Option CharField :=
  (m.fields.find? fun p => p.1 == n).map (·.2)

/-- A loadable module: its attributes that name document classes. -/
abbrev ModuleAttrs := List (String × DocumentClass)

/-- The interpreter's module environment backing `import_module`. -/
structure Env where
  modules : List (String × ModuleAttrs)
  deriving DecidableEq, Repr

/-- `import_module(m)`: `none` models the `ImportError` case. -/
def Env.importModule (env : Env) (m : String) : Option ModuleAttrs :=
  (env.modules.find? fun p => p.1 == m).map (·.2)

/-- `getattr(module, a)`: `none` models the `AttributeError` case. -/
def getattrDoc (attrs : ModuleAttrs) (a : String) : Option DocumentClass :=
  (attrs.find? fun p => p.1 == a).map (·.2)

/-- Python slice `s[:n]` (code points). -/
def strTake (s : String) (n : Nat) : String :=
  String.mk (s.data.take n)

/-- Python slice `s[n:]` (code points). -/
def strDrop (s : String) (n : Nat) : String :=
  String.mk (s.data.drop n)

/-- Index of the last `.` in a character list, if any. -/
def lastDotIdx : List Char → Option Nat
  | [] => Option.none
  | c :: cs =>
    match lastDotIdx cs with
    | some i => some (i + 1)
    | Option.none => if c = '.' then some 0 else Option.none

/-- Python `s.rindex('.')`: index of the last separator, raising
`ValueError` when there is none. -/
def rindexDot (s : String) : Except Exc Nat :=
  match lastDotIdx s.data with
  | some i => .ok i
  | Option.none => .error .valueError

/-- The module-level constant
`MONGOENGINE_USER_DOCUMENT = getattr(settings, 'MONGOENGINE_USER_DOCUMENT', 'mongoengine.django.auth.User')`:
the configured name, defaulting when the setting is absent. -/
def MONGOENGINE_USER_DOCUMENT (settingVal : Option String) : String :=
  settingVal.getD "mongoengine.django.auth.User"

/-- `MongoUserManager._get_user_document`: split the configured name at the
last dot, import the module, fetch the attribute.  Only `ImportError` is
caught and turned into `ImproperlyConfigured`; `ValueError` (no dot) and
`AttributeError` (missing attribute) propagate. -/
def get_user_document (env : Env) (settingVal : Option String) : Except Exc DocumentClass :=
  let name := MONGOENGINE_USER_DOCUMENT settingVal
  match rindexDot name with
  | .error e => .error e
  | .ok dot =>
    match env.importModule (strTake name dot) with
    | Option.none =>
      .error (.improperlyConfigured
        ("Error importing " ++ name ++ ", please check settings.MONGOENGINE_USER_DOCUMENT"))
    | some mod =>
      match getattrDoc mod (strDrop name (dot + 1)) with
      | Option.none => .error (.attributeError (strDrop name (dot + 1)))
      | some doc => .ok doc

/-- The manager once `contribute_to_class` has bound it: `self.model` holds
the resolved document class and `self.dj_model` the original Django model. -/
structure BoundManager where
  model : DocumentClass
  dj_model : DjModel
  deriving DecidableEq, Repr

/-- `MongoUserManager.contribute_to_class(model, name)`: after the base
manager attachment (which sets `self.model = model`, here captured directly
as `dj_model`), resolve the user document, copy its `USERNAME_FIELD` onto
the Django model and contribute a unique `CharField(_('username'),
max_length=30)` under that name, then copy `REQUIRED_FIELDS` and contribute
a plain `CharField(_(name), max_length=30)` for each required name. -/
def MongoUserManager.contribute_to_class (env : Env) (settingVal : Option String)
    (model : DjModel) : Except Exc BoundManager :=
  match get_user_document env settingVal with
  | .error e => .error e
  | .ok doc =>
    let dj1 : DjModel := { model with USERNAME_FIELD := doc.USERNAME_FIELD }
    let username : CharField := { label := "username", max_length := 30, unique := true }
    let dj2 := username.contribute_to_class dj1 dj1.USERNAME_FIELD
    let dj3 : DjModel := { dj2 with REQUIRED_FIELDS := doc.REQUIRED_FIELDS }
    let dj4 := dj3.REQUIRED_FIELDS.foldl
      (fun acc n => (CharField.mk n 30 false).contribute_to_class acc n) dj3
    .ok { model := doc, dj_model := dj4 }

/-- `MongoUserManager.get_query_set`: the document class's `objects`. -/
def MongoUserManager.get_query_set (bm : BoundManager) : QuerySet :=
  bm.model.objects

/-- `MongoUserManager.get_empty_query_set`: `self.model.objects.none()`. -/
def MongoUserManager.get_empty_query_set (bm : BoundManager) : QuerySet :=
  QuerySet.none bm.model.objects

/-- `MongoUserManager.get(*args, **kwargs)`: delegate to the queryset's
`get`; a `self.model.DoesNotExist` is re-raised as
`self.dj_model.DoesNotExist` (ModelBackend expects that exception). -/
def MongoUserManager.get (bm : BoundManager) (kw : List (String × String)) : Except Exc Doc :=
  match (MongoUserManager.get_query_set bm).get kw with
  | .ok d => .ok d
  | .error e =>
    if e = Exc.doesNotExist bm.model.name then
      .error (.doesNotExist bm.dj_model.name)
    else
      .error e

/-- The `db` property: always `raise NotImplementedError`. -/
def MongoUserManager.db (_bm : BoundManager) : Except Exc Unit :=
  .error .notImplementedError

deriving instance DecidableEq for Except

/-! ### Helper lemmas -/

theorem lastDotIdx_get {l : List Char} {i : Nat} (h : lastDotIdx l = some i) :
    l.get? i = some '.' := by
  induction l generalizing i with
  | nil => simp [lastDotIdx] at h
  | cons c cs ih =>
    cases hcs : lastDotIdx cs with
    | some k =>
      simp [lastDotIdx, hcs] at h
      subst h
      simpa using ih hcs
    | none =>
      simp [lastDotIdx, hcs] at h
      by_cases hc : c = '.'
      · simp [hc] at h
        subst h
        simp [hc]
      · simp [hc] at h

theorem lastDotIdx_of_none {l : List Char} (h : lastDotIdx l = Option.none) :
    ∀ j, l.get? j ≠ some '.' := by
  induction l with
  | nil => intro j; simp
  | cons c cs ih =>
    intro j
    cases hcs : lastDotIdx cs with
    | some k => simp [lastDotIdx, hcs] at h
    | none =>
      simp [lastDotIdx, hcs] at h
      cases j with
      | zero => simpa using h
      | succ j => simpa using ih hcs j

theorem lastDotIdx_last {l : List Char} {i : Nat} (h : lastDotIdx l = some i) :
    ∀ j, i < j → l.get? j ≠ some '.' := by
  induction l generalizing i with
  | nil => simp [lastDotIdx] at h
  | cons c cs ih =>
    intro j hij
    cases hcs : lastDotIdx cs with
    | some k =>
      simp [lastDotIdx, hcs] at h
      subst h
      cases j with
      | zero => omega
      | succ j => simpa using ih hcs j (by omega)
    | none =>
      simp [lastDotIdx, hcs] at h
      by_cases hc : c = '.'
      · simp [hc] at h
        subst h
        cases j with
        | zero => omega
        | succ j => simpa using lastDotIdx_of_none hcs j
      · simp [hc] at h

theorem lastDotIdx_none_iff (l : List Char) :
    lastDotIdx l = Option.none ↔ '.' ∉ l := by
  constructor
  · intro h hm
    obtain ⟨j, hj⟩ := List.mem_iff_get?.mp hm
    exact lastDotIdx_of_none h j hj
  · intro h
    cases hl : lastDotIdx l with
    | none => rfl
    | some i =>
      exact absurd (List.get?_mem (lastDotIdx_get hl)) h

theorem find_append_of_none {α} (q : α → Bool) {l₁ : List α} (l₂ : List α)
    (h : l₁.find? q = Option.none) : (l₁ ++ l₂).find? q = l₂.find? q := by
  induction l₁ with
  | nil => rfl
  | cons x l ih =>
    by_cases hx : q x
    · rw [List.find?_cons_of_pos _ hx] at h
      cases h
    · rw [List.find?_cons_of_neg _ (by simpa using hx)] at h
      rw [List.cons_append, List.find?_cons_of_neg _ (by simpa using hx)]
      exact ih h

theorem find_append_of_some {α} (q : α → Bool) {l₁ : List α} (l₂ : List α) {a : α}
    (h : l₁.find? q = some a) : (l₁ ++ l₂).find? q = some a := by
  induction l₁ with
  | nil => simp [List.find?] at h
  | cons x l ih =>
    by_cases hx : q x
    · rw [List.find?_cons_of_pos _ hx] at h
      simpa [List.find?_cons_of_pos _ hx] using h
    · rw [List.find?_cons_of_neg _ (by simpa using hx)] at h
      rw [List.cons_append, List.find?_cons_of_neg _ (by simpa using hx)]
      exact ih h

/-- The result of `contribute_to_class` on a successful resolution,
expressed as a single record update of the original Django model. -/
def bridgedModel (m : DjModel) (doc : DocumentClass) : DjModel :=
  { m with
    USERNAME_FIELD := doc.USERNAME_FIELD,
    REQUIRED_FIELDS := doc.REQUIRED_FIELDS,
    fields := m.fields
      ++ [(doc.USERNAME_FIELD, CharField.mk "username" 30 true)]
      ++ doc.REQUIRED_FIELDS.map fun n => (n, CharField.mk n 30 false) }

theorem contribLoop_spec (R : List String) (m : DjModel) :
    R.foldl (fun acc n => (CharField.mk n 30 false).contribute_to_class acc n) m
      = { m with fields := m.fields ++ R.map fun n => (n, CharField.mk n 30 false) } := by
  induction R generalizing m with
  | nil => simp
  | cons n R ih =>
    rw [List.foldl_cons, ih]
    simp [CharField.contribute_to_class]

theorem contribute_ok_spec {env : Env} {s : Option String} {doc : DocumentClass}
    (m : DjModel) (h : get_user_document env s = .ok doc) :
    MongoUserManager.contribute_to_class env s m
      = .ok { model := doc, dj_model := bridgedModel m doc } := by
  simp only [MongoUserManager.contribute_to_class, h]
  rw [contribLoop_spec]
  simp [CharField.contribute_to_class, bridgedModel]

theorem contribute_ok_inv {env : Env} {s : Option String} {m : DjModel} {bm : BoundManager}
    (h : MongoUserManager.contribute_to_class env s m = .ok bm) :
    get_user_document env s = .ok bm.model ∧ bm.dj_model = bridgedModel m bm.model := by
  cases hd : get_user_document env s with
  | error e =>
    rw [MongoUserManager.contribute_to_class, hd] at h
    cases h
  | ok doc =>
    rw [contribute_ok_spec m hd] at h
    injection h with h
    subst h
    exact ⟨rfl, rfl⟩

/-! ### Concrete fixtures -/

/-- A small user document class with one required field and no stored docs. -/
def sampleDoc : DocumentClass :=
  { name := "User", USERNAME_FIELD := "username", REQUIRED_FIELDS := ["email"],
    objects := { cls := "User", docs := [] } }

/-- An environment providing the default `mongoengine.django.auth.User`. -/
def sampleEnv : Env :=
  { modules := [("mongoengine.django.auth", [("User", sampleDoc)])] }

/-- The fresh `MongoUser` Django model before any contribution. -/
def sampleDj : DjModel :=
  { name := "MongoUser", USERNAME_FIELD := "", REQUIRED_FIELDS := [],
    fields := [], table := [] }

/-- A bound manager over `sampleDoc` and `sampleDj`. -/
def sampleBM : BoundManager :=
  { model := sampleDoc, dj_model := sampleDj }

/-! ### Claim theorems -/

/-- C1: if the document layer's `get` raises the document schema's
not-found condition (`self.model.DoesNotExist`), the manager's `get`
re-raises the original relational model's not-found condition
(`self.dj_model.DoesNotExist`) instead of the document layer's native
not-found type. -/
theorem get_translates_doesNotExist (bm : BoundManager) (kw : List (String × String))
    (h : (MongoUserManager.get_query_set bm).get kw
      = .error (.doesNotExist bm.model.name)) :
    MongoUserManager.get bm kw = .error (.doesNotExist bm.dj_model.name) := by
  simp [MongoUserManager.get, h]

theorem get_translates_doesNotExist_witness :
    MongoUserManager.get sampleBM [] = .error (.doesNotExist "MongoUser") :=
  get_translates_doesNotExist sampleBM [] rfl

/-- C4: after binding, `get`, `get_query_set` and `get_empty_query_set`
resolve against the resolved document schema (`self.model`) and its query
interface exclusively: the two queryset operations are invariant under
replacing the relational model by any other, `get` is invariant under
replacing every component of the relational model except its name (the
error-class tag), and neither touches the relational backing table. -/
theorem manager_queries_target_document_schema (bm : BoundManager) (dj' : DjModel)
    (u : String) (R : List String) (fs : List (String × CharField)) (t : List Doc)
    (kw : List (String × String)) :
    MongoUserManager.get_query_set bm = bm.model.objects ∧
    MongoUserManager.get_empty_query_set bm = QuerySet.none bm.model.objects ∧
    MongoUserManager.get_query_set { model := bm.model, dj_model := dj' }
      = MongoUserManager.get_query_set bm ∧
    MongoUserManager.get_empty_query_set { model := bm.model, dj_model := dj' }
      = MongoUserManager.get_empty_query_set bm ∧
    MongoUserManager.get
        { model := bm.model, dj_model := DjModel.mk bm.dj_model.name u R fs t } kw
      = MongoUserManager.get bm kw :=
  ⟨rfl, rfl, rfl, rfl, rfl⟩

/-- C7: accessing the manager's `db` property always raises
`NotImplementedError` and never returns a value. -/
theorem db_always_notImplemented (bm : BoundManager) :
    MongoUserManager.db bm = .error .notImplementedError ∧
    ∀ v : Unit, MongoUserManager.db bm ≠ .ok v :=
  ⟨rfl, fun _ h => Except.noConfusion h⟩

/-- C8: `get_empty_query_set` returns the empty result set obtained from
the document schema's query interface (`objects.none()`), of size zero
regardless of how many documents are stored. -/
theorem get_empty_query_set_empty (bm : BoundManager) :
    MongoUserManager.get_empty_query_set bm = QuerySet.none bm.model.objects ∧
    (MongoUserManager.get_empty_query_set bm).docs = [] ∧
    (MongoUserManager.get_empty_query_set bm).docs.length = 0 :=
  ⟨rfl, rfl, rfl⟩

/-- The bound manager produced by contributing to `sampleDj` with the
default setting over `sampleEnv`. -/
def sampleBMContributed : BoundManager :=
  { model := sampleDoc,
    dj_model :=
      { name := "MongoUser", USERNAME_FIELD := "username",
        REQUIRED_FIELDS := ["email"],
        fields := [("username", CharField.mk "username" 30 true),
                   ("email", CharField.mk "email" 30 false)],
        table := [] } }

/-- C2: after `contribute_to_class`, the shadow model's `USERNAME_FIELD`
equals the document schema's primary field name `p` and a unique
max-length-30 `CharField` is contributed under `p`; the shadow model's
`REQUIRED_FIELDS` equals the schema's required-field list, and for every
name in it a max-length-30 `CharField` labelled with that name is
contributed under that name. -/
theorem contribute_projects_schema_fields (env : Env) (s : Option String)
    (m : DjModel) (bm : BoundManager)
    (h : MongoUserManager.contribute_to_class env s m = .ok bm) :
    bm.dj_model.USERNAME_FIELD = bm.model.USERNAME_FIELD ∧
    (bm.model.USERNAME_FIELD, CharField.mk "username" 30 true) ∈ bm.dj_model.fields ∧
    bm.dj_model.REQUIRED_FIELDS = bm.model.REQUIRED_FIELDS ∧
    ∀ n ∈ bm.model.REQUIRED_FIELDS,
      (n, CharField.mk n 30 false) ∈ bm.dj_model.fields := by
  obtain ⟨-, hdj⟩ := contribute_ok_inv h
  rw [hdj]
  refine ⟨rfl, ?_, rfl, ?_⟩
  · exact List.mem_append.mpr
      (Or.inl (List.mem_append.mpr (Or.inr (List.mem_singleton.mpr rfl))))
  · intro n hn
    exact List.mem_append.mpr
      (Or.inr (List.mem_map_of_mem (fun k => (k, CharField.mk k 30 false)) hn))

theorem contribute_projects_schema_fields_witness :
    sampleBMContributed.dj_model.USERNAME_FIELD
      = sampleBMContributed.model.USERNAME_FIELD ∧
    (sampleBMContributed.model.USERNAME_FIELD, CharField.mk "username" 30 true)
      ∈ sampleBMContributed.dj_model.fields ∧
    sampleBMContributed.dj_model.REQUIRED_FIELDS
      = sampleBMContributed.model.REQUIRED_FIELDS ∧
    ∀ n ∈ sampleBMContributed.model.REQUIRED_FIELDS,
      (n, CharField.mk n 30 false) ∈ sampleBMContributed.dj_model.fields :=
  contribute_projects_schema_fields sampleEnv Option.none sampleDj
    sampleBMContributed (by rfl)

/-- C10 (amended): if the document schema's `USERNAME_FIELD` also appears
in its `REQUIRED_FIELDS`, the loop contributes a second, non-unique
max-length-30 `CharField` under the same name after the unique one, so
both coexist in the shadow model's field list; but the field the model
reports under the primary name through Django's creation-order
`get_field` lookup is still the earlier unique username field (when the
model declared no prior field under that name). -/
theorem duplicate_username_field_coexists (env : Env) (s : Option String)
    (m : DjModel) (bm : BoundManager)
    (h : MongoUserManager.contribute_to_class env s m = .ok bm)
    (hmem : bm.model.USERNAME_FIELD ∈ bm.model.REQUIRED_FIELDS)
    (hfresh : (m.fields.find? fun q => q.1 == bm.model.USERNAME_FIELD) = Option.none) :
    (bm.model.USERNAME_FIELD, CharField.mk bm.model.USERNAME_FIELD 30 false)
      ∈ bm.dj_model.fields ∧
    (∃ l₁ l₂ l₃, bm.dj_model.fields
        = l₁ ++ (bm.model.USERNAME_FIELD, CharField.mk "username" 30 true)
            :: (l₂ ++ (bm.model.USERNAME_FIELD,
                CharField.mk bm.model.USERNAME_FIELD 30 false) :: l₃)) ∧
    DjModel.get_field bm.dj_model bm.model.USERNAME_FIELD
      = some (CharField.mk "username" 30 true) ∧
    (CharField.mk "username" 30 true).unique = true := by
  obtain ⟨-, hdj⟩ := contribute_ok_inv h
  rw [hdj]
  refine ⟨?_, ?_, ?_, rfl⟩
  · exact List.mem_append.mpr
      (Or.inr (List.mem_map_of_mem (fun k => (k, CharField.mk k 30 false)) hmem))
  · obtain ⟨R₁, R₂, hR⟩ := List.append_of_mem hmem
    refine ⟨m.fields, R₁.map fun k => (k, CharField.mk k 30 false),
      R₂.map fun k => (k, CharField.mk k 30 false), ?_⟩
    simp only [bridgedModel, hR]
    simp [List.map_append, List.append_assoc]
  · have h1 : ((m.fields
        ++ [(bm.model.USERNAME_FIELD, CharField.mk "username" 30 true)]).find?
          fun q => q.1 == bm.model.USERNAME_FIELD)
        = some (bm.model.USERNAME_FIELD, CharField.mk "username" 30 true) := by
      rw [find_append_of_none _ _ hfresh]
      rw [List.find?_cons_of_pos _ (by simp)]
    have h2 := find_append_of_some (fun q => q.1 == bm.model.USERNAME_FIELD)
      (bm.model.REQUIRED_FIELDS.map fun n => (n, CharField.mk n 30 false)) h1
    unfold DjModel.get_field
    simp only [bridgedModel]
    rw [h2]
    rfl

/-- A schema whose primary field name is also listed as required. -/
def dupDoc : DocumentClass :=
  { name := "U", USERNAME_FIELD := "username", REQUIRED_FIELDS := ["username"],
    objects := { cls := "U", docs := [] } }

/-- An environment providing module `m` with attribute `U = dupDoc`. -/
def dupEnv : Env :=
  { modules := [("m", [("U", dupDoc)])] }

/-- The bound manager from contributing to `sampleDj` configured with
`m.U` over `dupEnv`. -/
def dupBM : BoundManager :=
  { model := dupDoc,
    dj_model :=
      { name := "MongoUser", USERNAME_FIELD := "username",
        REQUIRED_FIELDS := ["username"],
        fields := [("username", CharField.mk "username" 30 true),
                   ("username", CharField.mk "username" 30 false)],
        table := [] } }

/-- C10 counterexample: with `username` both primary and required, the
contributed shadow model holds both the unique and the later non-unique
field, yet Django's creation-order `get_field` lookup reports the unique
one — the field the model registers under the primary name IS unique. -/
theorem duplicate_username_registered_unique_counterexample :
    MongoUserManager.contribute_to_class dupEnv (some "m.U") sampleDj = .ok dupBM ∧
    dupBM.model.USERNAME_FIELD ∈ dupBM.model.REQUIRED_FIELDS ∧
    DjModel.get_field dupBM.dj_model dupBM.model.USERNAME_FIELD
      = some (CharField.mk "username" 30 true) ∧
    ¬ (DjModel.get_field dupBM.dj_model dupBM.model.USERNAME_FIELD).map (·.unique)
        = some false :=
  ⟨by rfl, by decide, by rfl, by decide⟩

theorem duplicate_username_field_coexists_witness :
    (dupBM.model.USERNAME_FIELD, CharField.mk dupBM.model.USERNAME_FIELD 30 false)
      ∈ dupBM.dj_model.fields ∧
    (∃ l₁ l₂ l₃, dupBM.dj_model.fields
        = l₁ ++ (dupBM.model.USERNAME_FIELD, CharField.mk "username" 30 true)
            :: (l₂ ++ (dupBM.model.USERNAME_FIELD,
                CharField.mk dupBM.model.USERNAME_FIELD 30 false) :: l₃)) ∧
    DjModel.get_field dupBM.dj_model dupBM.model.USERNAME_FIELD
      = some (CharField.mk "username" 30 true) ∧
    (CharField.mk "username" 30 true).unique = true :=
  duplicate_username_field_coexists dupEnv (some "m.U") sampleDj dupBM
    (by rfl) (by decide) (by rfl)

/-- C3: if the configured name has a separator but its module segment is
not importable, resolution raises `ImproperlyConfigured` with a message
containing the configured name, an error type distinct from the generic
`AttributeError` lookup failure. -/
theorem import_failure_improperlyConfigured (env : Env) (cfg : String) (dot : Nat)
    (h1 : rindexDot cfg = .ok dot)
    (h2 : env.importModule (strTake cfg dot) = Option.none) :
    get_user_document env (some cfg)
      = .error (.improperlyConfigured
          ("Error importing " ++ cfg
            ++ ", please check settings.MONGOENGINE_USER_DOCUMENT")) ∧
    (∃ pre post,
      "Error importing " ++ cfg ++ ", please check settings.MONGOENGINE_USER_DOCUMENT"
        = pre ++ cfg ++ post) ∧
    ∀ msg attr, Exc.improperlyConfigured msg ≠ Exc.attributeError attr := by
  refine ⟨?_,
    ⟨"Error importing ", ", please check settings.MONGOENGINE_USER_DOCUMENT", rfl⟩,
    fun msg attr hc => by cases hc⟩
  simp only [get_user_document, MONGOENGINE_USER_DOCUMENT, Option.getD_some, h1, h2]

theorem import_failure_improperlyConfigured_witness :
    get_user_document (Env.mk []) (some "m.U")
      = .error (.improperlyConfigured
          ("Error importing " ++ "m.U"
            ++ ", please check settings.MONGOENGINE_USER_DOCUMENT")) ∧
    (∃ pre post,
      "Error importing " ++ "m.U" ++ ", please check settings.MONGOENGINE_USER_DOCUMENT"
        = pre ++ "m.U" ++ post) ∧
    ∀ msg attr, Exc.improperlyConfigured msg ≠ Exc.attributeError attr :=
  import_failure_improperlyConfigured (Env.mk []) "m.U" 1 (by rfl) (by rfl)

/-- C6: a configured name without a separator makes resolution fail with
the uncaught `ValueError` from `rindex`, and a loadable module lacking
the named attribute makes it fail with the uncaught `AttributeError`;
neither is the `ImproperlyConfigured` configuration error. -/
theorem malformed_or_missing_attribute_propagates (env : Env) (cfg : String)
    (mod : ModuleAttrs) :
    (('.' ∉ cfg.data) → get_user_document env (some cfg) = .error .valueError) ∧
    (∀ dot, rindexDot cfg = .ok dot →
      env.importModule (strTake cfg dot) = some mod →
      getattrDoc mod (strDrop cfg (dot + 1)) = Option.none →
      get_user_document env (some cfg)
        = .error (.attributeError (strDrop cfg (dot + 1)))) ∧
    (∀ msg, Exc.valueError ≠ Exc.improperlyConfigured msg) ∧
    (∀ attr msg, Exc.attributeError attr ≠ Exc.improperlyConfigured msg) := by
  refine ⟨?_, ?_, ?_, ?_⟩
  rotate_left 2
  · intro msg h; cases h
  · intro attr msg h; cases h
  · intro hnd
    have hn : lastDotIdx cfg.data = Option.none := (lastDotIdx_none_iff _).mpr hnd
    simp only [get_user_document, MONGOENGINE_USER_DOCUMENT, Option.getD_some,
      rindexDot, hn]
  · intro dot h1 h2 h3
    simp only [get_user_document, MONGOENGINE_USER_DOCUMENT, Option.getD_some,
      h1, h2, h3]

theorem malformed_or_missing_attribute_propagates_witness :
    get_user_document dupEnv (some "nodot") = .error .valueError ∧
    get_user_document dupEnv (some "m.Missing")
      = .error (.attributeError (strDrop "m.Missing" (1 + 1))) :=
  ⟨(malformed_or_missing_attribute_propagates dupEnv "nodot" []).1 (by decide),
   (malformed_or_missing_attribute_propagates dupEnv "m.Missing"
      [("U", dupDoc)]).2.1 1 (by rfl) (by rfl) (by rfl)⟩

/-- C5: for a configured name with a separator, resolution splits at the
last separator — the character at `dot` is a `.`, no later character is —
loads the module named by the prefix and returns that module's attribute
named by the suffix; prefix, separator and suffix reassemble the name. -/
theorem schema_resolution_splits_at_last_dot (env : Env) (cfg : String) (dot : Nat)
    (mod : ModuleAttrs) (doc : DocumentClass)
    (h1 : rindexDot cfg = .ok dot)
    (h2 : env.importModule (strTake cfg dot) = some mod)
    (h3 : getattrDoc mod (strDrop cfg (dot + 1)) = some doc) :
    get_user_document env (some cfg) = .ok doc ∧
    cfg.data.get? dot = some '.' ∧
    (∀ j, dot < j → cfg.data.get? j ≠ some '.') ∧
    strTake cfg dot ++ "." ++ strDrop cfg (dot + 1) = cfg := by
  have hlast : lastDotIdx cfg.data = some dot := by
    revert h1
    unfold rindexDot
    cases hl : lastDotIdx cfg.data with
    | none => intro h; cases h
    | some i => intro h; injection h with h; rw [h]
  have hget : cfg.data.get? dot = some '.' := lastDotIdx_get hlast
  obtain ⟨hlt, hgetv⟩ := List.get?_eq_some.mp hget
  refine ⟨?_, hget, lastDotIdx_last hlast, ?_⟩
  · simp only [get_user_document, MONGOENGINE_USER_DOCUMENT, Option.getD_some,
      h1, h2, h3]
  · have hdata : (cfg.data.take dot ++ ['.']) ++ cfg.data.drop (dot + 1) = cfg.data := by
      rw [List.append_assoc]
      show cfg.data.take dot ++ '.' :: cfg.data.drop (dot + 1) = cfg.data
      conv_rhs => rw [← List.take_append_drop dot cfg.data]
      congr 1
      rw [List.drop_eq_getElem_cons hlt]
      congr 1
      exact hgetv.symm
    calc strTake cfg dot ++ "." ++ strDrop cfg (dot + 1)
        = String.mk ((cfg.data.take dot ++ ['.']) ++ cfg.data.drop (dot + 1)) := rfl
      _ = String.mk cfg.data := by rw [hdata]
      _ = cfg := rfl

theorem schema_resolution_splits_at_last_dot_witness :
    get_user_document dupEnv (some "m.U") = .ok dupDoc ∧
    "m.U".data.get? 1 = some '.' ∧
    (∀ j, 1 < j → "m.U".data.get? j ≠ some '.') ∧
    strTake "m.U" 1 ++ "." ++ strDrop "m.U" (1 + 1) = "m.U" :=
  schema_resolution_splits_at_last_dot dupEnv "m.U" 1 [("U", dupDoc)] dupDoc
    (by rfl) (by rfl) (by rfl)

/-- C9: with the setting absent, the built-in default name
`mongoengine.django.auth.User` is used, and class contribution proceeds
with that default schema's primary and required fields. -/
theorem default_user_document_used (env : Env) (mod : ModuleAttrs)
    (doc : DocumentClass) (m : DjModel)
    (h1 : env.importModule "mongoengine.django.auth" = some mod)
    (h2 : getattrDoc mod "User" = some doc) :
    MONGOENGINE_USER_DOCUMENT Option.none = "mongoengine.django.auth.User" ∧
    MongoUserManager.contribute_to_class env Option.none m
      = .ok { model := doc, dj_model := bridgedModel m doc } ∧
    (bridgedModel m doc).USERNAME_FIELD = doc.USERNAME_FIELD ∧
    (bridgedModel m doc).REQUIRED_FIELDS = doc.REQUIRED_FIELDS := by
  have hr : rindexDot "mongoengine.django.auth.User" = .ok 23 := by rfl
  have ht : strTake "mongoengine.django.auth.User" 23 = "mongoengine.django.auth" := by rfl
  have hd : strDrop "mongoengine.django.auth.User" (23 + 1) = "User" := by rfl
  have hud : get_user_document env Option.none = .ok doc := by
    simp only [get_user_document, MONGOENGINE_USER_DOCUMENT, Option.getD_none,
      hr, ht, h1, hd, h2]
  exact ⟨rfl, contribute_ok_spec m hud, rfl, rfl⟩

theorem default_user_document_used_witness :
    MONGOENGINE_USER_DOCUMENT Option.none = "mongoengine.django.auth.User" ∧
    MongoUserManager.contribute_to_class sampleEnv Option.none sampleDj
      = .ok { model := sampleDoc, dj_model := bridgedModel sampleDj sampleDoc } ∧
    (bridgedModel sampleDj sampleDoc).USERNAME_FIELD = sampleDoc.USERNAME_FIELD ∧
    (bridgedModel sampleDj sampleDoc).REQUIRED_FIELDS = sampleDoc.REQUIRED_FIELDS :=
  default_user_document_used sampleEnv [("User", sampleDoc)] sampleDoc sampleDj
    (by rfl) (by rfl)
